import Mathlib

/-! Verification development for the INDRA grounding mapper and ChEBI client.

The definitions below are a shallow embedding of the Python sources
`indra/preassembler/grounding_mapper.py` and `indra/databases/chebi_client.py`.
External collaborator modules (`uniprot_client`, `hgnc_client`, `mesh_client`,
`go_client`, the deft disambiguator, `requests`, `lxml.etree`) are modelled as
explicit function parameters bundled in environment structures.  Python dicts
of string identifiers are modelled as association lists with first-key lookup
and in-place update.  Python exceptions are modelled with explicit error
values; where the source mutates an object before an exception escapes, the
embedding returns the partially updated value together with the error. -/

/-- Association-list model of a Python `db_refs` dictionary mapping namespace
keys to identifier strings. -/
abbrev Refs := List (String × String)

/-- Dictionary lookup `d.get(k)`: the value at the first matching key. -/
def dget : Refs → String → Option String
  | [], _ => none
  | (k', v) :: t, k => if k' = k then some v else dget t k

/-- Dictionary update `d[k] = v`: replace the first binding of `k` in place, or
append a new binding at the end, as a Python dict does. -/
def dset : Refs → String → String → Refs
  | [], k, v => [(k, v)]
  | (k', v') :: t, k, v => if k' = k then (k, v) :: t else (k', v') :: dset t k v

/-- Python truthiness of an optional string: `None` and the empty string are
falsy, any other string is truthy. -/
def truthy : Option String → Bool
  | none => false
  | some s => if s = "" then false else true

/-- Underlying string of an optional value (used only where truthiness of the
option has already been tested, mirroring how the source uses such values). -/
def sval (o : Option String) : String := o.getD ""

/-- Python exceptions distinguished by the embedding. -/
inductive PyErr where
  | valueError : String → PyErr
  | typeError : PyErr
  | attributeError : PyErr
  | indexError : PyErr
  | keyError : PyErr
  | connectionError : PyErr
  | xmlSyntaxError : PyErr
deriving DecidableEq

/-- Evidence attached to a Statement.  `deft_annots` abstracts the nested
`annotations['agents']['deft']` score list; the statement's `text_refs` are
read only inside the external full-text fetch, which is modelled as the
collaborator function `Env.db_text` below. -/
structure Evidence where
  pmid : Option String
  text : Option String
  deft_annots : Option (List (Option String))
deriving DecidableEq

/-- INDRA Agent: display name, identifier record (`db_refs`) and the agents of
its bound conditions.  A `BoundCondition` object is modelled by the agent it
carries, which is the only part of it the mapper reads or writes. -/
inductive Agent where
  | mk : String → Refs → List Agent → Agent

/-- Display name of an agent. -/
def Agent.name : Agent → String
  | .mk n _ _ => n

/-- Identifier record of an agent. -/
def Agent.db_refs : Agent → Refs
  | .mk _ r _ => r

/-- Bound-condition agents of an agent. -/
def Agent.bcs : Agent → List Agent
  | .mk _ _ b => b

/-- Replace the identifier record of an agent. -/
def Agent.withRefs : Agent → Refs → Agent
  | .mk n _ b, r => .mk n r b

/-- Replace the display name of an agent. -/
def Agent.withName : Agent → String → Agent
  | .mk _ r b, n => .mk n r b

/-- Replace the bound-condition agents of an agent. -/
def Agent.withBcs : Agent → List Agent → Agent
  | .mk n r _, b => .mk n r b

/-- INDRA Statement: its ordered agent list (entries may be absent, as
`agent_list()` returns) and its evidence list. -/
structure Stmt where
  agents : List (Option Agent)
  evidence : List Evidence

/-- External collaborators of the grounding mapper.  `up_gene_name` models
`uniprot_client.get_gene_name` with its `web_fallback` flag; `hgnc_id`,
`hgnc_up` and `hgnc_name` model `hgnc_client.get_hgnc_id`,
`hgnc_client.get_uniprot_id` and `hgnc_client.get_hgnc_name`; `mesh_name` and
`go_label` model `mesh_client.get_mesh_name` and `go_client.get_go_label`;
`db_text` models the indra-db full-text retrieval attempt of
`_get_text_for_grounding` (exceptions inside that `try` block are absorbed
into a `none` result); `pubmed_abstract` models
`pubmed_client.get_abstract`; `deft_models` models the module-level
`deft_disambiguators` table, each entry being the `disambiguate` call on a
context text, returning the grounding (`none` models the string
`'ungrounded'`, `some (ns, id)` an already split `'ns:id'`), the standard
name, and the score blob. -/
structure Env where
  up_gene_name : Bool → String → Option String
  hgnc_id : String → Option String
  hgnc_up : String → Option String
  hgnc_name : String → Option String
  mesh_name : String → Option String
  go_label : String → Option String
  db_text : Evidence → String → Option String
  pubmed_abstract : String → Option String
  deft_models : String → Option (String → Except PyErr (Option (String × String) × String × String))

/-- Embedding of `GroundingMapper.standardize_db_refs` (grounding_mapper.py
lines 90-147).  The incoming HGNC entry is an HGNC symbol, the outgoing one an
HGNC ID.  A raised `ValueError` is modelled as `.error` carrying the message. -/
def standardize_db_refs (env : Env) (db_refs : Refs) : Except String Refs :=
  let up_id := dget db_refs "UP"
  let hgnc_sym := dget db_refs "HGNC"
  if truthy up_id && !truthy hgnc_sym then
    let gene_name := env.up_gene_name false (sval up_id)
    if truthy gene_name then
      let hgnc_id := env.hgnc_id (sval gene_name)
      if truthy hgnc_id then .ok (dset db_refs "HGNC" (sval hgnc_id)) else .ok db_refs
    else .ok db_refs
  else if truthy hgnc_sym && !truthy up_id then
    let hgnc_id := env.hgnc_id (sval hgnc_sym)
    if truthy hgnc_id then
      let refs1 := dset db_refs "HGNC" (sval hgnc_id)
      let up2 := env.hgnc_up (sval hgnc_id)
      if truthy up2 then .ok (dset refs1 "UP" (sval up2)) else .ok refs1
    else
      .error ("No HGNC ID corresponding to gene symbol " ++ sval hgnc_sym ++
        " in grounding map.")
  else if truthy up_id && truthy hgnc_sym then
    let gene_name := env.up_gene_name true (sval up_id)
    if !truthy gene_name then
      .error ("No gene name found for Uniprot ID " ++ sval up_id ++ " (expected " ++
        sval hgnc_sym ++ ")")
    else if sval gene_name ≠ sval hgnc_sym then
      .error ("Gene name " ++ sval gene_name ++ " for Uniprot ID " ++ sval up_id ++
        " does not match HGNC symbol " ++ sval hgnc_sym ++ " given in grounding map.")
    else
      let hgnc_id := env.hgnc_id (sval hgnc_sym)
      if !truthy hgnc_id then .ok db_refs
      else .ok (dset db_refs "HGNC" (sval hgnc_id))
  else .ok db_refs

/-- Modelled from the spec: `Agent.get_grounding` lives in `indra.statements`,
which is not part of the provided sources.  Per spec section 4.5 it returns
the highest-priority populated grounding namespace of the mention together
with its identifier, the priority order being FamPlex, HGNC, UniProt, ChEBI,
MeSH, GO, first match wins. -/
def first_grounding (refs : Refs) : List String → Option (String × String)
  | [] => none
  | ns :: rest =>
    match dget refs ns with
    | some v => some (ns, v)
    | none => first_grounding refs rest

/-- Modelled from the spec: priority list of `Agent.get_grounding`
(spec section 4.5). -/
def get_grounding (a : Agent) : Option (String × String) :=
  first_grounding a.db_refs ["FPLX", "HGNC", "UP", "CHEBI", "MESH", "GO"]

/-- Embedding of `standardize_name` (grounding_mapper.py lines 327-379) on a
present agent (for an absent agent the source returns immediately, a no-op).
In the CHEBI branch the source (line 368) calls
`chebi_client.chebi_id_to_name(...)`, but `chebi_id_to_name` is the
module-level dict defined at chebi_client.py line 332, not a function, so
that call raises `TypeError: 'dict' object is not callable`; the branch is
therefore embedded as `.error .typeError`, raised before any assignment to
the agent's name. -/
def standardize_name (env : Env) (a : Agent) : Except PyErr Agent :=
  match get_grounding a with
  | none => .ok a
  | some (db_ns, db_id) =>
    if db_ns = "" ∨ db_id = "" then .ok a
    else if db_ns = "FPLX" then .ok (a.withName (sval (dget a.db_refs "FPLX")))
    else if db_ns = "HGNC" then
      let gene_name := env.hgnc_name db_id
      if truthy gene_name then .ok (a.withName (sval gene_name)) else .ok a
    else if db_ns = "UP" then
      let gene_name := env.up_gene_name false (sval (dget a.db_refs "UP"))
      if truthy gene_name then .ok (a.withName (sval gene_name)) else .ok a
    else if db_ns = "CHEBI" then .error .typeError
    else if db_ns = "MESH" then
      let mesh_name := env.mesh_name (sval (dget a.db_refs "MESH"))
      if truthy mesh_name then .ok (a.withName (sval mesh_name)) else .ok a
    else if db_ns = "GO" then
      let go_name := env.go_label (sval (dget a.db_refs "GO"))
      if truthy go_name then .ok (a.withName (sval go_name)) else .ok a
    else .ok a

/-- State of a `GroundingMapper` instance: the grounding map (`gm.get(t)` is
`none` for an absent text, `some none` for the explicit none-sentinel,
`some (some refs)` for a curated record), the agent map (its values stand for
the agents deserialized by `Agent._from_json` from the stored JSON), and the
`use_deft` flag. -/
structure Mapper where
  gm : String → Option (Option Refs)
  agent_map : String → Option Agent
  use_deft : Bool

/-- Embedding of `GroundingMapper.update_agent_db_refs` (grounding_mapper.py
lines 50-88).  The source deep-copies the grounding-map record before
standardizing, so the stored record is never affected; in this functional
embedding the copy is the identity and `Mapper.gm` passes through unchanged.
The returned pair is the agent as left by the call together with the
exception escaping it, if any: a `ValueError` from `standardize_db_refs`
escapes before `agent.db_refs` is assigned, while a `TypeError` from the
renaming step escapes after the assignment, so the agent keeps the new
record in that case.  When the grounding map has no record for the text
(`gm.get` returns `None`, for an absent text or the none-sentinel), the
source would call `standardize_db_refs(None)`, which raises
`AttributeError`; callers only invoke this with a present, non-sentinel
text. -/
def update_agent_db_refs (env : Env) (mapper : Mapper) (agent : Agent)
    (agent_text : String) (do_rename : Bool) : Agent × Option PyErr :=
  match mapper.gm agent_text with
  | some (some map_db_refs) =>
    match standardize_db_refs env map_db_refs with
    | .error m => (agent, some (.valueError m))
    | .ok new_refs =>
      let agent1 := agent.withRefs new_refs
      if do_rename then
        match standardize_name env agent1 with
        | .ok agent2 => (agent2, none)
        | .error e => (agent1, some e)
      else (agent1, none)
  | _ => (agent, some .attributeError)

/-- Embedding of `GroundingMapper.map_agent` (grounding_mapper.py lines
218-267).  Returns the mapped agent and the maps-to-none flag, or the
exception escaping the call.  An agent-map entry short-circuits everything
else; an absent `TEXT` or a text absent from the grounding map leaves the
agent unchanged; the none-sentinel signals a drop; otherwise the agent's
record is updated from the grounding map. -/
def map_agent (env : Env) (mapper : Mapper) (agent : Agent) (do_rename : Bool) :
    Except PyErr (Option Agent × Bool) :=
  let agent_text := dget agent.db_refs "TEXT"
  match agent_text.bind mapper.agent_map with
  | some mapped_to_agent => .ok (some mapped_to_agent, false)
  | none =>
    match agent_text with
    | none => .ok (some agent, false)
    | some t =>
      match mapper.gm t with
      | none => .ok (some agent, false)
      | some none => .ok (none, true)
      | some (some _) =>
        match update_agent_db_refs env mapper agent t do_rename with
        | (a', none) => .ok (some a', false)
        | (_, some e) => .error e

/-- Embedding of `_get_text_for_grounding` (grounding_mapper.py lines
767-822).  The indra-db full-text attempt is the collaborator `env.db_text`
(its internal exceptions, including the `IndexError` on an empty evidence
list, are caught by the surrounding `try` and become `none`); the PubMed
attempt reads `stmt.evidence[0].pmid` outside any `try`, so an empty
evidence list raises `IndexError` there; the final fallback returns the
evidence sentence.  Python truthiness of the intermediate text values is
reproduced, including the corner where a non-`None` falsy text skips the
remaining fallbacks and the function returns `None`. -/
def get_text_for_grounding (env : Env) (evs : List Evidence) (agent_text : String) :
    Except PyErr (Option String) :=
  let db_res := match evs.head? with
    | none => none
    | some ev => env.db_text ev agent_text
  match db_res with
  | some t => if t = "" then .ok none else .ok (some t)
  | none =>
    match evs.head? with
    | none => .error .indexError
    | some ev =>
      match ev.pmid with
      | some p =>
        if p = "" then .ok ev.text
        else
          match env.pubmed_abstract p with
          | some t => if t = "" then .ok none else .ok (some t)
          | none => .ok ev.text
      | none => .ok ev.text

/-- Initialization of the deft annotation slots at the start of
`run_deft_disambiguation` (grounding_mapper.py lines 735-743): when the
statement has evidence and no deft slot list yet, a list with one empty slot
per agent-list entry is installed; with no evidence the source works on a
fresh dict that is discarded. -/
def init_deft_annots (evs : List Evidence) (n : Nat) : List Evidence :=
  match evs with
  | [] => []
  | ev :: rest =>
    match ev.deft_annots with
    | none => { ev with deft_annots := some (List.replicate n none) } :: rest
    | some _ => ev :: rest

/-- Recording of the disambiguation scores
(`annots['agents']['deft'][idx] = disamb_scores`, grounding_mapper.py line
764). -/
def set_deft_score (evs : List Evidence) (idx : Nat) (scores : String) : List Evidence :=
  match evs with
  | [] => []
  | ev :: rest =>
    match ev.deft_annots with
    | some l => { ev with deft_annots := some (l.set idx (some scores)) } :: rest
    | none => ev :: rest

/-- Embedding of `run_deft_disambiguation` (grounding_mapper.py lines
734-764).  Mirrors the source's mutation order: the deft annotation slots are
initialized first; the context text is then retrieved; the disambiguator is
called; on a grounded result the agent's record and name are overwritten; on
an HGNC result the symbol for the predicted ID is re-standardized through
`standardize_db_refs`, whose `ValueError` escapes after the overwrite, so the
partially rewritten agent is what the caller observes.  A Python `None`
value for the looked-up HGNC symbol is represented by the empty string,
which is equally falsy everywhere the value flows.  The third component is
the exception escaping the call, if any; the first two are the state of
`new_agent` and of the evidence list when the call ends. -/
def run_deft_disambiguation (env : Env) (evs : List Evidence) (n_agents idx : Nat)
    (new_agent : Option Agent) (agent_txt : String) :
    Option Agent × List Evidence × Option PyErr :=
  let evs1 := init_deft_annots evs n_agents
  match get_text_for_grounding env evs1 agent_txt with
  | .error e => (new_agent, evs1, some e)
  | .ok grounding_text =>
    if !truthy grounding_text then (new_agent, evs1, none)
    else
      match env.deft_models agent_txt with
      | none => (new_agent, evs1, some .keyError)
      | some dis =>
        match dis (sval grounding_text) with
        | .error e => (new_agent, evs1, some e)
        | .ok (none, _, _) => (new_agent, evs1, none)
        | .ok (some (db_ns, db_id), standard_name, disamb_scores) =>
          match new_agent with
          | none => (none, evs1, some .attributeError)
          | some a =>
            let a1 := (a.withRefs [("TEXT", agent_txt), (db_ns, db_id)]).withName standard_name
            if db_ns = "HGNC" then
              let hgnc_sym := env.hgnc_name db_id
              match standardize_db_refs env [("HGNC", sval hgnc_sym)] with
              | .error m => (some a1, evs1, some (.valueError m))
              | .ok standard_refs =>
                (some (a1.withRefs standard_refs), set_deft_score evs1 idx disamb_scores, none)
            else (some a1, set_deft_score evs1 idx disamb_scores, none)

/-- Top-level agent loop of `map_agents_for_stmt` (grounding_mapper.py lines
170-203): each slot is skipped when absent or without a `TEXT` entry;
otherwise `map_agent` runs, then (when enabled and a model exists for the
text) deft disambiguation runs with its exceptions caught and logged, then
the maps-to-none flag discards the whole statement, and finally bound
conditions of the original agent are carried over onto a replacement that
lost them.  Returns the rebuilt slot list and evidence, `none` for a
dropped statement, or the escaping exception. -/
def map_top_agents (env : Env) (mapper : Mapper) (do_rename : Bool) (n_agents : Nat) :
    Nat → List (Option Agent) → List Evidence →
    Except PyErr (Option (List (Option Agent) × List Evidence))
  | _, [], evs => .ok (some ([], evs))
  | idx, none :: rest, evs =>
    match map_top_agents env mapper do_rename n_agents (idx + 1) rest evs with
    | .error e => .error e
    | .ok none => .ok none
    | .ok (some (l, evs')) => .ok (some (none :: l, evs'))
  | idx, some agent :: rest, evs =>
    match dget agent.db_refs "TEXT" with
    | none =>
      match map_top_agents env mapper do_rename n_agents (idx + 1) rest evs with
      | .error e => .error e
      | .ok none => .ok none
      | .ok (some (l, evs')) => .ok (some (some agent :: l, evs'))
    | some agent_txt =>
      match map_agent env mapper agent do_rename with
      | .error e => .error e
      | .ok (new_agent, maps_to_none) =>
        let step :=
          if mapper.use_deft && (env.deft_models agent_txt).isSome then
            let r := run_deft_disambiguation env evs n_agents idx new_agent agent_txt
            (r.1, r.2.1)
          else (new_agent, evs)
        if maps_to_none then .ok none
        else
          let new_slot :=
            match step.1 with
            | some a2 => some (if a2.bcs.isEmpty then a2.withBcs agent.bcs else a2)
            | none => none
          match map_top_agents env mapper do_rename n_agents (idx + 1) rest step.2 with
          | .error e => .error e
          | .ok none => .ok none
          | .ok (some (l, evs')) => .ok (some (new_slot :: l, evs'))

/-- Bound-condition loop body of `map_agents_for_stmt` (grounding_mapper.py
lines 206-214) over the bound conditions of one agent: each bound agent is
re-mapped, and a maps-to-none signal discards the whole statement. -/
def map_bc_list (env : Env) (mapper : Mapper) (do_rename : Bool) :
    List Agent → Except PyErr (Option (List Agent))
  | [] => .ok (some [])
  | bca :: rest =>
    match map_agent env mapper bca do_rename with
    | .error e => .error e
    | .ok (na, maps_to_none) =>
      if maps_to_none then .ok none
      else
        match map_bc_list env mapper do_rename rest with
        | .error e => .error e
        | .ok none => .ok none
        | .ok (some l) => .ok (some (na.getD bca :: l))

/-- Bound-condition loop of `map_agents_for_stmt` over all mapped top-level
slots. -/
def map_bc_phase (env : Env) (mapper : Mapper) (do_rename : Bool) :
    List (Option Agent) → Except PyErr (Option (List (Option Agent)))
  | [] => .ok (some [])
  | none :: rest =>
    match map_bc_phase env mapper do_rename rest with
    | .error e => .error e
    | .ok none => .ok none
    | .ok (some l) => .ok (some (none :: l))
  | some a :: rest =>
    match map_bc_list env mapper do_rename a.bcs with
    | .error e => .error e
    | .ok none => .ok none
    | .ok (some bcs') =>
      match map_bc_phase env mapper do_rename rest with
      | .error e => .error e
      | .ok none => .ok none
      | .ok (some l) => .ok (some (some (a.withBcs bcs') :: l))

/-- Embedding of `GroundingMapper.map_agents_for_stmt` (grounding_mapper.py
lines 149-216): deep-copy the statement (identity here), run the top-level
agent loop, install the rebuilt agent list, then run the bound-condition
loop.  `.ok none` is the dropped-statement signal. -/
def map_agents_for_stmt (env : Env) (mapper : Mapper) (stmt : Stmt) (do_rename : Bool) :
    Except PyErr (Option Stmt) :=
  match map_top_agents env mapper do_rename stmt.agents.length 0 stmt.agents stmt.evidence with
  | .error e => .error e
  | .ok none => .ok none
  | .ok (some (ags, evs)) =>
    match map_bc_phase env mapper do_rename ags with
    | .error e => .error e
    | .ok none => .ok none
    | .ok (some ags2) => .ok (some { agents := ags2, evidence := evs })

/-- Embedding of `GroundingMapper.map_agents` (grounding_mapper.py lines
269-300).  The second component of the result is the skipped-statement
count the source logs at the end of the batch. -/
def map_agents (env : Env) (mapper : Mapper) : List Stmt → Bool →
    Except PyErr (List Stmt × Nat)
  | [], _ => .ok ([], 0)
  | stmt :: rest, do_rename =>
    match map_agents_for_stmt env mapper stmt do_rename with
    | .error e => .error e
    | .ok r =>
      match map_agents env mapper rest do_rename with
      | .error e => .error e
      | .ok (l, n) =>
        match r with
        | some mapped_stmt => .ok (mapped_stmt :: l, n)
        | none => .ok (l, n + 1)

/-- Prefix normalization inside `isa_cmp` (chebi_client.py lines 237-240): an
identifier lacking the `CHEBI:` prefix is compared in fully prefixed form. -/
def expand_chebi (a : String) : String :=
  if a.startsWith "CHEBI:" then a else "CHEBI:" ++ a

/-- Embedding of the comparator `isa_cmp` (chebi_client.py lines 235-246) over
an is-a oracle standing for `hierarchies['entity'].isa('CHEBI', _, 'CHEBI', _)`. -/
def isa_cmp (isa : String → String → Bool) (a b : String) : Int :=
  if isa (expand_chebi a) (expand_chebi b) then -1
  else if isa (expand_chebi b) (expand_chebi a) then 1
  else 0

/-- Stable insertion of an element into a list already sorted by a comparator:
the element goes before the first entry it does not strictly follow.  Python's
`sorted` guarantees exactly stability plus comparator-consistent ordering, and
on any comparator-consistent input every stable sort produces the same list,
so this models `sorted(..., key=cmp_to_key(cmp))` on such inputs. -/
def insert_cmp (cmp : String → String → Int) (x : String) : List String → List String
  | [] => [x]
  | y :: ys => if cmp x y ≤ 0 then x :: y :: ys else y :: insert_cmp cmp x ys

/-- Stable sort by a comparator (see `insert_cmp`). -/
def sort_cmp (cmp : String → String → Int) : List String → List String
  | [] => []
  | x :: xs => insert_cmp cmp x (sort_cmp cmp xs)

/-- Embedding of `get_specific_id` (chebi_client.py lines 216-249).  For an
empty input the source returns the empty list itself, a falsy no-result
modelled as `none`; otherwise the head of the comparator-sorted list. -/
def get_specific_id (isa : String → String → Bool) (chebi_ids : List String) :
    Option String :=
  if chebi_ids.isEmpty then none
  else (sort_cmp (isa_cmp isa) chebi_ids).head?

/-- Opaque stand-in for an `lxml.etree` element. -/
structure Xml where
  tag : String
deriving DecidableEq

/-- External collaborators of the ChEBI web client: `http_get` models
`requests.get` (a network failure is the `.error` case, since the source
wraps the call in no `try`), `parse_xml` models `etree.fromstring` (an empty
or malformed body is the `.error` case), `xml_find` models `Element.find`
with the namespace map, and `xml_text` models the `.text` attribute. -/
structure CEnv where
  http_get : String → Except PyErr (Nat × String)
  parse_xml : String → Except PyErr Xml
  xml_find : Xml → String → Option Xml
  xml_text : Xml → Option String

/-- Request URL built by `get_chebi_entry_from_web` (chebi_client.py lines
148-150). -/
def chebi_entity_url (chebi_id : String) : String :=
  "http://www.ebi.ac.uk/webservices/chebi/2.0/test/getCompleteEntity?chebiId=" ++ chebi_id

/-- Embedding of `get_chebi_entry_from_web` (chebi_client.py lines 134-157).
Only a non-200 status is handled (logged and turned into `None`); an
exception from `requests.get` or from `etree.fromstring` propagates. -/
def get_chebi_entry_from_web (cenv : CEnv) (chebi_id : String) :
    Except PyErr (Option Xml) :=
  match cenv.http_get (chebi_entity_url chebi_id) with
  | .error e => .error e
  | .ok (status_code, content) =>
    if status_code ≠ 200 then .ok none
    else
      match cenv.parse_xml content with
      | .error e => .error e
      | .ok tree => .ok (cenv.xml_find tree "n:Body/c:getCompleteEntityResponse/c:return")

/-- Embedding of `_get_chebi_value_from_entry` (chebi_client.py lines
160-167). -/
def get_chebi_value_from_entry (cenv : CEnv) (entry : Option Xml) (key : String) :
    Option String :=
  match entry with
  | none => none
  | some e =>
    match cenv.xml_find e ("c:" ++ key) with
    | some elem => cenv.xml_text elem
    | none => none

/-- Embedding of `get_chebi_name_from_id_web` (chebi_client.py lines
170-185). -/
def get_chebi_name_from_id_web (cenv : CEnv) (chebi_id : String) :
    Except PyErr (Option String) :=
  match get_chebi_entry_from_web cenv chebi_id with
  | .error e => .error e
  | .ok entry => .ok (get_chebi_value_from_entry cenv entry "chebiAsciiName")

/-- Drop signal of `map_agent` for one agent, expressed directly on the
mapper's tables: the agent has a `TEXT` entry, the agent map has no
(truthy) entry for it, and the grounding map maps it to the explicit
none-sentinel. -/
def agent_maps_to_none (mapper : Mapper) (a : Agent) : Bool :=
  match dget a.db_refs "TEXT" with
  | none => false
  | some t =>
    !(mapper.agent_map t).isSome &&
      (match mapper.gm t with
       | some none => true
       | _ => false)

/-- Bound-condition agents carried by a top-level slot after the top-level
mapping phase: an agent-map replacement keeps its own bound conditions
unless it has none, in which case the original's are carried over; every
other path leaves the original bound conditions in place. -/
def mapped_bcs (mapper : Mapper) (a : Agent) : List Agent :=
  match dget a.db_refs "TEXT" with
  | none => a.bcs
  | some t =>
    match mapper.agent_map t with
    | some rep => if rep.bcs.isEmpty then a.bcs else rep.bcs
    | none => a.bcs

/-- Drop signal of an optional top-level slot. -/
def opt_drop (mapper : Mapper) : Option Agent → Bool
  | none => false
  | some a => agent_maps_to_none mapper a

/-- Drop signal contributed by the bound conditions a slot carries. -/
def slot_bc_drop (mapper : Mapper) : Option Agent → Bool
  | none => false
  | some a => a.bcs.any (agent_maps_to_none mapper)

/-- Drop signal contributed by the bound conditions a slot will carry after
the top-level mapping phase. -/
def mapped_bc_drop (mapper : Mapper) : Option Agent → Bool
  | none => false
  | some a => (mapped_bcs mapper a).any (agent_maps_to_none mapper)

/-- Statement-level drop condition: some top-level agent, or some
bound-condition agent present after the top-level mapping phase, signals a
drop. -/
def stmt_dropped (mapper : Mapper) (stmt : Stmt) : Bool :=
  stmt.agents.any (opt_drop mapper) || stmt.agents.any (mapped_bc_drop mapper)

/-- The same collaborators with the deft model table emptied (the
configuration in which the disambiguation step never fires). -/
def env_no_deft (env : Env) : Env := { env with deft_models := fun _ => none }

/-- Projection of a top-level phase result onto its agent slots, used to
compare runs that differ only in evidence annotations. -/
def top_res_agents : Except PyErr (Option (List (Option Agent) × List Evidence)) →
    Except PyErr (Option (List (Option Agent)))
  | .error e => .error e
  | .ok none => .ok none
  | .ok (some (l, _)) => .ok (some l)

/-- Collaborator instance whose lookups all miss and with no deft models. -/
def env_triv : Env :=
  ⟨fun _ _ => none, fun _ => none, fun _ => none, fun _ => none, fun _ => none,
    fun _ => none, fun _ _ => none, fun _ => none, fun _ => none⟩

/-- Precomputed agent-map entity used to exhibit agent-map shadowing. -/
def c2_rep_agent : Agent := .mk "Xrep" [("TEXT", "X")] []

/-- Mapper whose grounding map sends the text X to the none-sentinel while
the agent map also has an entry for X. -/
def c2_mapper : Mapper :=
  ⟨fun t => if t = "X" then some none else none,
   fun t => if t = "X" then some c2_rep_agent else none,
   true⟩

/-- One-agent statement whose text is X. -/
def c2_stmt : Stmt := ⟨[some (.mk "X" [("TEXT", "X")] [])], []⟩

/-- Mapper sending the text A to the none-sentinel and nothing else. -/
def c2w_mapper : Mapper :=
  ⟨fun t => if t = "A" then some none else none, fun _ => none, false⟩

/-- Statement mentioning B (unknown text, retained). -/
def c2w_stmt1 : Stmt := ⟨[some (.mk "B" [("TEXT", "B")] [])], []⟩

/-- Statement mentioning A (curated to nothing, dropped). -/
def c2w_stmt2 : Stmt := ⟨[some (.mk "A" [("TEXT", "A")] [])], []⟩

/-- Precomputed agent-map entity for the text X. -/
def c3_rep : Agent := .mk "Xname" [("TEXT", "X"), ("HGNC", "1")] []

/-- Collaborators with a deft model for X that grounds it to FPLX:MEK. -/
def c3_env : Env :=
  ⟨fun _ _ => none, fun _ => none, fun _ => none, fun _ => none, fun _ => none,
    fun _ => none, fun _ _ => none, fun _ => none,
    fun t => if t = "X" then some (fun _ => .ok (some ("FPLX", "MEK"), "MEK", "sc"))
      else none⟩

/-- Mapper with an agent-map entry for X and an empty grounding map. -/
def c3_mapper : Mapper :=
  ⟨fun _ => none, fun t => if t = "X" then some c3_rep else none, true⟩

/-- One-agent statement mentioning X with one evidence sentence. -/
def c3_stmt : Stmt :=
  ⟨[some (.mk "X" [("TEXT", "X")] [])], [⟨none, some "sentence", none⟩]⟩

/-- Agent with text Y used for the agent-map shortcut witness. -/
def c3w_agent : Agent := .mk "Y" [("TEXT", "Y")] []

/-- Mapper whose agent map and grounding map both know the text Y: the
agent-map entry must win. -/
def c3w_mapper : Mapper :=
  ⟨fun t => if t = "Y" then some (some [("TEXT", "Y"), ("HGNC", "ZZZ")]) else none,
   fun t => if t = "Y" then some c3_rep else none, false⟩

/-- Collaborators with a deft model for X predicting HGNC:9999, whose symbol
FAKESYM resolves to no HGNC ID, so the re-standardization raises. -/
def c9_env : Env :=
  ⟨fun _ _ => none, fun _ => none, fun _ => none,
    (fun i => if i = "9999" then some "FAKESYM" else none),
    fun _ => none, fun _ => none, fun _ _ => none, fun _ => none,
    fun t => if t = "X" then some (fun _ => .ok (some ("HGNC", "9999"), "NAME", "sc"))
      else none⟩

/-- Mapper with a curated record for X (the step-2 result). -/
def c9_mapper : Mapper :=
  ⟨fun t => if t = "X" then some (some [("TEXT", "X"), ("FPLX", "ERK")]) else none,
   fun _ => none, true⟩

/-- One-agent statement mentioning X with one evidence sentence. -/
def c9_stmt : Stmt :=
  ⟨[some (.mk "X" [("TEXT", "X")] [])], [⟨none, some "sent", none⟩]⟩

/-- Collaborators with a deft model for X whose hook always raises. -/
def c9w_env : Env :=
  ⟨fun _ _ => none, fun _ => none, fun _ => none, fun _ => none, fun _ => none,
    fun _ => none, fun _ _ => none, fun _ => none,
    fun t => if t = "X" then some (fun _ => .error .keyError) else none⟩

/-- Collaborators resolving the UniProt accession P1 to gene name G1 and G1
to the HGNC ID 7. -/
def c5_env : Env :=
  ⟨(fun _ u => if u = "P1" then some "G1" else none),
    (fun g => if g = "G1" then some "7" else none),
    fun _ => none, fun _ => none, fun _ => none, fun _ => none, fun _ _ => none,
    fun _ => none, fun _ => none⟩

/-- Is-a oracle for the chain CHEBI:1 is-a CHEBI:2 is-a CHEBI:3 (with the
transitive edge). -/
def c7_isa : String → String → Bool := fun a b =>
  (a = "CHEBI:1" && b = "CHEBI:2") || (a = "CHEBI:2" && b = "CHEBI:3") ||
    (a = "CHEBI:1" && b = "CHEBI:3")

/-- Web collaborators whose HTTP request fails at the network level. -/
def cenv_net : CEnv :=
  ⟨fun _ => .error .connectionError, fun _ => .ok ⟨"x"⟩, fun _ _ => none, fun _ => none⟩

/-- Web collaborators answering 200 with a body the XML parser rejects. -/
def cenv_bad : CEnv :=
  ⟨fun _ => .ok (200, "garbage"), fun _ => .error .xmlSyntaxError, fun _ _ => none,
    fun _ => none⟩

/-- Web collaborators answering with a non-200 status. -/
def c8w_cenv : CEnv :=
  ⟨fun _ => .ok (404, ""), fun _ => .error .xmlSyntaxError, fun _ _ => none,
    fun _ => none⟩

/-- Mapper with a curated FPLX record for the text ERK. -/
def c10_mapper : Mapper :=
  ⟨fun t => if t = "ERK" then some (some [("TEXT", "ERK"), ("FPLX", "ERK")]) else none,
   fun _ => none, false⟩
theorem dget_dset_ne (m : Refs) (k v k' : String) (h : k' ≠ k) :
    dget (dset m k v) k' = dget m k' := by
  induction m with
  | nil => simp [dset, dget, Ne.symm h]
  | cons p t ih =>
    obtain ⟨pk, pv⟩ := p
    by_cases hk : pk = k
    · subst hk
      simp [dset, dget, h, Ne.symm h]
    · simp [dset, dget, hk, ih]

theorem Agent.db_refs_withName (a : Agent) (n : String) :
    (a.withName n).db_refs = a.db_refs := by
  cases a
  rfl

theorem Agent.bcs_withName (a : Agent) (n : String) :
    (a.withName n).bcs = a.bcs := by
  cases a
  rfl

theorem Agent.bcs_withRefs (a : Agent) (r : Refs) :
    (a.withRefs r).bcs = a.bcs := by
  cases a
  rfl

theorem Agent.db_refs_withRefs (a : Agent) (r : Refs) :
    (a.withRefs r).db_refs = r := by
  cases a
  rfl

theorem Agent.bcs_withBcs (a : Agent) (l : List Agent) :
    (a.withBcs l).bcs = l := by
  cases a
  rfl

theorem standardize_name_shape (env : Env) (a b : Agent)
    (h : standardize_name env a = .ok b) : b.db_refs = a.db_refs ∧ b.bcs = a.bcs := by
  unfold standardize_name at h
  cases hg : get_grounding a with
  | none =>
    rw [hg] at h
    simp at h
    subst h
    exact ⟨rfl, rfl⟩
  | some p =>
    obtain ⟨ns, v⟩ := p
    rw [hg] at h
    dsimp only at h
    split_ifs at h <;> simp at h <;> subst h <;>
      simp [Agent.db_refs_withName, Agent.bcs_withName]

theorem sort_cmp_all_zero (cmp : String → String → Int) :
    ∀ l : List String, (∀ x ∈ l, ∀ y ∈ l, cmp x y = 0) → sort_cmp cmp l = l := by
  intro l
  induction l with
  | nil => intro _; rfl
  | cons x xs ih =>
    intro h
    have hxs : sort_cmp cmp xs = xs :=
      ih (fun a ha b hb => h a (List.mem_cons_of_mem x ha) b (List.mem_cons_of_mem x hb))
    cases xs with
    | nil => simp [sort_cmp, insert_cmp]
    | cons y ys =>
      have hxy : cmp x y = 0 :=
        h x (List.mem_cons_self x _) y (List.mem_cons_of_mem x (List.mem_cons_self y _))
      rw [sort_cmp, hxs]
      simp [insert_cmp, hxy]

theorem update_agent_db_refs_bcs (env : Env) (mapper : Mapper) (a : Agent)
    (t : String) (r : Bool) :
    ((update_agent_db_refs env mapper a t r).1).bcs = a.bcs := by
  unfold update_agent_db_refs
  cases hg : mapper.gm t with
  | none => rfl
  | some o =>
    cases o with
    | none => rfl
    | some map_rec =>
      dsimp only
      cases hs : standardize_db_refs env map_rec with
      | error m => rfl
      | ok new_refs =>
        dsimp only
        cases r with
        | false => simp [Agent.bcs_withRefs]
        | true =>
          simp only [if_true]
          cases hn : standardize_name env (a.withRefs new_refs) with
          | ok a2 =>
            have := (standardize_name_shape env _ _ hn).2
            simpa [Agent.bcs_withRefs] using this
          | error e => simp [Agent.bcs_withRefs]

theorem map_agent_m2n (env : Env) (mapper : Mapper) (a : Agent) (r : Bool)
    (na : Option Agent) (m2n : Bool)
    (h : map_agent env mapper a r = .ok (na, m2n)) :
    m2n = agent_maps_to_none mapper a ∧ (m2n = true → na = none) := by
  unfold map_agent at h
  unfold agent_maps_to_none
  cases ht : dget a.db_refs "TEXT" with
  | none =>
    rw [ht] at h
    simp at h
    simp [h.2]
  | some t =>
    rw [ht] at h
    simp only [Option.some_bind] at h
    cases ham : mapper.agent_map t with
    | some rep =>
      rw [ham] at h
      simp at h
      simp [ham, h.2]
    | none =>
      rw [ham] at h
      dsimp only at h
      cases hgm : mapper.gm t with
      | none =>
        rw [hgm] at h
        simp at h
        simp [ham, hgm, h.2]
      | some o =>
        cases o with
        | none =>
          rw [hgm] at h
          simp at h
          simp [ham, hgm, h.1, h.2]
        | some map_rec =>
          rw [hgm] at h
          dsimp only at h
          cases hu : update_agent_db_refs env mapper a t r with
          | mk a' e? =>
            cases e? with
            | none =>
              rw [hu] at h
              simp at h
              simp [ham, hgm, h.2]
            | some e =>
              rw [hu] at h
              simp at h

theorem map_agent_some_bcs (env : Env) (mapper : Mapper) (a : Agent) (r : Bool)
    (b : Agent) (h : map_agent env mapper a r = .ok (some b, false)) :
    (if b.bcs.isEmpty then a.bcs else b.bcs) = mapped_bcs mapper a := by
  unfold map_agent at h
  cases ht : dget a.db_refs "TEXT" with
  | none =>
    rw [ht] at h
    simp at h
    subst h
    simp [mapped_bcs, ht]
  | some t =>
    rw [ht] at h
    simp only [Option.some_bind] at h
    cases ham : mapper.agent_map t with
    | some rep =>
      rw [ham] at h
      simp at h
      subst h
      simp [mapped_bcs, ht, ham]
    | none =>
      rw [ham] at h
      dsimp only at h
      cases hgm : mapper.gm t with
      | none =>
        rw [hgm] at h
        simp at h
        subst h
        simp [mapped_bcs, ht, ham]
      | some o =>
        cases o with
        | none =>
          rw [hgm] at h
          simp at h
        | some map_rec =>
          rw [hgm] at h
          dsimp only at h
          cases hu : update_agent_db_refs env mapper a t r with
          | mk a' e? =>
            cases e? with
            | some e =>
              rw [hu] at h
              simp at h
            | none =>
              rw [hu] at h
              simp at h
              subst h
              have h2 := update_agent_db_refs_bcs env mapper a t r
              rw [hu] at h2
              dsimp only at h2
              rw [h2]
              simp [mapped_bcs, ht, ham]

theorem run_deft_fst_some (env : Env) (evs : List Evidence) (n idx : Nat) (a : Agent)
    (t : String) :
    ∃ a', (run_deft_disambiguation env evs n idx (some a) t).1 = some a' ∧ a'.bcs = a.bcs := by
  unfold run_deft_disambiguation
  dsimp only
  repeat' split
  all_goals simp [Agent.bcs_withRefs, Agent.bcs_withName]

theorem map_agent_some_of_not_m2n (env : Env) (mapper : Mapper) (a : Agent) (r : Bool)
    (na : Option Agent) (h : map_agent env mapper a r = .ok (na, false)) :
    ∃ b, na = some b := by
  unfold map_agent at h
  cases ht : dget a.db_refs "TEXT" with
  | none =>
    rw [ht] at h
    simp at h
    exact ⟨a, h.symm⟩
  | some t =>
    rw [ht] at h
    simp only [Option.some_bind] at h
    cases ham : mapper.agent_map t with
    | some rep =>
      rw [ham] at h
      simp at h
      exact ⟨rep, h.symm⟩
    | none =>
      rw [ham] at h
      dsimp only at h
      cases hgm : mapper.gm t with
      | none =>
        rw [hgm] at h
        simp at h
        exact ⟨a, h.symm⟩
      | some o =>
        cases o with
        | none =>
          rw [hgm] at h
          simp at h
        | some map_rec =>
          rw [hgm] at h
          dsimp only at h
          cases hu : update_agent_db_refs env mapper a t r with
          | mk a' e? =>
            cases e? with
            | some e =>
              rw [hu] at h
              simp at h
            | none =>
              rw [hu] at h
              simp at h
              exact ⟨a', h.symm⟩

theorem map_top_ok_none (env : Env) (mapper : Mapper) (r : Bool) (nA : Nat) :
    ∀ ags idx evs, map_top_agents env mapper r nA idx ags evs = .ok none →
      ags.any (opt_drop mapper) = true := by
  intro ags
  induction ags with
  | nil =>
    intro idx evs h
    simp [map_top_agents] at h
  | cons a? rest ih =>
    intro idx evs h
    cases a? with
    | none =>
      simp only [map_top_agents] at h
      cases hrec : map_top_agents env mapper r nA (idx + 1) rest evs with
      | error e =>
        rw [hrec] at h
        simp at h
      | ok o =>
        cases o with
        | none =>
          rw [List.any_cons, ih _ _ hrec, Bool.or_true]
        | some p =>
          rw [hrec] at h
          simp at h
    | some a =>
      simp only [map_top_agents] at h
      cases ht : dget a.db_refs "TEXT" with
      | none =>
        rw [ht] at h
        cases hrec : map_top_agents env mapper r nA (idx + 1) rest evs with
        | error e =>
          rw [hrec] at h
          simp at h
        | ok o =>
          cases o with
          | none =>
            rw [List.any_cons, ih _ _ hrec, Bool.or_true]
          | some p =>
            rw [hrec] at h
            simp at h
      | some txt =>
        rw [ht] at h
        cases hma : map_agent env mapper a r with
        | error e =>
          rw [hma] at h
          simp at h
        | ok pr =>
          obtain ⟨na, m2n⟩ := pr
          rw [hma] at h
          dsimp only at h
          cases hm : m2n with
          | true =>
            have hdrop := (map_agent_m2n env mapper a r na m2n hma).1
            rw [hm] at hdrop
            rw [List.any_cons]
            simp only [opt_drop, ← hdrop, Bool.true_or]
          | false =>
            rw [hm] at h
            simp only [if_neg, Bool.false_eq_true, not_false_iff] at h
            by_cases hd : (mapper.use_deft && (env.deft_models txt).isSome) = true
            · rw [if_pos hd] at h
              cases hrec : map_top_agents env mapper r nA (idx + 1) rest
                  (run_deft_disambiguation env evs nA idx na txt).2.1 with
              | error e =>
                rw [hrec] at h
                simp at h
              | ok o =>
                cases o with
                | none =>
                  rw [List.any_cons, ih _ _ hrec, Bool.or_true]
                | some p =>
                  rw [hrec] at h
                  simp at h
            · rw [if_neg hd] at h
              cases hrec : map_top_agents env mapper r nA (idx + 1) rest evs with
              | error e =>
                rw [hrec] at h
                simp at h
              | ok o =>
                cases o with
                | none =>
                  rw [List.any_cons, ih _ _ hrec, Bool.or_true]
                | some p =>
                  rw [hrec] at h
                  simp at h

theorem map_top_ok_some (env : Env) (mapper : Mapper) (r : Bool) (nA : Nat) :
    ∀ ags idx evs l evs2, map_top_agents env mapper r nA idx ags evs = .ok (some (l, evs2)) →
      ags.any (opt_drop mapper) = false ∧
      l.any (slot_bc_drop mapper) = ags.any (mapped_bc_drop mapper) := by
  intro ags
  induction ags with
  | nil =>
    intro idx evs l evs2 h
    simp [map_top_agents] at h
    obtain ⟨hl, hevs⟩ := h
    subst hl
    exact ⟨rfl, rfl⟩
  | cons a? rest ih =>
    intro idx evs l evs2 h
    cases a? with
    | none =>
      simp only [map_top_agents] at h
      cases hrec : map_top_agents env mapper r nA (idx + 1) rest evs with
      | error e =>
        rw [hrec] at h
        simp at h
      | ok o =>
        cases o with
        | none =>
          rw [hrec] at h
          simp at h
        | some p =>
          obtain ⟨l1, evs1⟩ := p
          rw [hrec] at h
          simp at h
          obtain ⟨hl, hevs⟩ := h
          subst hl
          obtain ⟨ih1, ih2⟩ := ih _ _ _ _ hrec
          constructor
          · rw [List.any_cons, ih1]
            rfl
          · rw [List.any_cons, List.any_cons, ih2]
            rfl
    | some a =>
      simp only [map_top_agents] at h
      cases ht : dget a.db_refs "TEXT" with
      | none =>
        rw [ht] at h
        cases hrec : map_top_agents env mapper r nA (idx + 1) rest evs with
        | error e =>
          rw [hrec] at h
          simp at h
        | ok o =>
          cases o with
          | none =>
            rw [hrec] at h
            simp at h
          | some p =>
            obtain ⟨l1, evs1⟩ := p
            rw [hrec] at h
            simp at h
            obtain ⟨hl, hevs⟩ := h
            subst hl
            obtain ⟨ih1, ih2⟩ := ih _ _ _ _ hrec
            constructor
            · rw [List.any_cons, ih1]
              simp [opt_drop, agent_maps_to_none, ht]
            · rw [List.any_cons, List.any_cons, ih2]
              simp [slot_bc_drop, mapped_bc_drop, mapped_bcs, ht]
      | some txt =>
        rw [ht] at h
        cases hma : map_agent env mapper a r with
        | error e =>
          rw [hma] at h
          simp at h
        | ok pr =>
          obtain ⟨na, m2n⟩ := pr
          rw [hma] at h
          dsimp only at h
          cases hm : m2n with
          | true =>
            rw [hm] at h
            simp at h
          | false =>
            rw [hm] at h
            simp only [if_neg, Bool.false_eq_true, not_false_iff] at h
            have hnd := (map_agent_m2n env mapper a r na m2n hma).1
            rw [hm] at hnd
            obtain ⟨b, hb⟩ := map_agent_some_of_not_m2n env mapper a r na (hm ▸ hma)
            subst hb
            have hslot := map_agent_some_bcs env mapper a r b (hm ▸ hma)
            by_cases hd : (mapper.use_deft && (env.deft_models txt).isSome) = true
            · rw [if_pos hd] at h
              obtain ⟨a2, ha2, ha2bcs⟩ := run_deft_fst_some env evs nA idx b txt
              rw [ha2] at h
              dsimp only at h
              cases hrec : map_top_agents env mapper r nA (idx + 1) rest
                  (run_deft_disambiguation env evs nA idx (some b) txt).2.1 with
              | error e =>
                rw [hrec] at h
                simp at h
              | ok o =>
                cases o with
                | none =>
                  rw [hrec] at h
                  simp at h
                | some p =>
                  obtain ⟨l1, evs1⟩ := p
                  rw [hrec] at h
                  simp at h
                  obtain ⟨hl, hevs⟩ := h
                  subst hl
                  obtain ⟨ih1, ih2⟩ := ih _ _ _ _ hrec
                  constructor
                  · rw [List.any_cons, ih1]
                    simp [opt_drop, ← hnd]
                  · rw [List.any_cons, List.any_cons, ih2]
                    have hbcs_if : (if a2.bcs.isEmpty then a2.withBcs a.bcs else a2).bcs =
                        if a2.bcs.isEmpty then a.bcs else a2.bcs := by
                      by_cases hbe : a2.bcs.isEmpty
                      · rw [if_pos hbe, if_pos hbe, Agent.bcs_withBcs]
                      · rw [if_neg hbe, if_neg hbe]
                    have hhead : slot_bc_drop mapper
                        (some (if a2.bcs.isEmpty then a2.withBcs a.bcs else a2)) =
                        mapped_bc_drop mapper (some a) := by
                      simp only [slot_bc_drop, mapped_bc_drop]
                      rw [hbcs_if, ha2bcs, hslot]
                    rw [hhead]
            · rw [if_neg hd] at h
              dsimp only at h
              cases hrec : map_top_agents env mapper r nA (idx + 1) rest evs with
              | error e =>
                rw [hrec] at h
                simp at h
              | ok o =>
                cases o with
                | none =>
                  rw [hrec] at h
                  simp at h
                | some p =>
                  obtain ⟨l1, evs1⟩ := p
                  rw [hrec] at h
                  simp at h
                  obtain ⟨hl, hevs⟩ := h
                  subst hl
                  obtain ⟨ih1, ih2⟩ := ih _ _ _ _ hrec
                  constructor
                  · rw [List.any_cons, ih1]
                    simp [opt_drop, ← hnd]
                  · rw [List.any_cons, List.any_cons, ih2]
                    have hbcs_if : (if b.bcs.isEmpty then b.withBcs a.bcs else b).bcs =
                        if b.bcs.isEmpty then a.bcs else b.bcs := by
                      by_cases hbe : b.bcs.isEmpty
                      · rw [if_pos hbe, if_pos hbe, Agent.bcs_withBcs]
                      · rw [if_neg hbe, if_neg hbe]
                    have hhead : slot_bc_drop mapper
                        (some (if b.bcs.isEmpty then b.withBcs a.bcs else b)) =
                        mapped_bc_drop mapper (some a) := by
                      simp only [slot_bc_drop, mapped_bc_drop]
                      rw [hbcs_if, hslot]
                    rw [hhead]

theorem map_bc_list_ok_none (env : Env) (mapper : Mapper) (r : Bool) :
    ∀ bcs, map_bc_list env mapper r bcs = .ok none →
      bcs.any (agent_maps_to_none mapper) = true := by
  intro bcs
  induction bcs with
  | nil =>
    intro h
    simp [map_bc_list] at h
  | cons bca rest ih =>
    intro h
    simp only [map_bc_list] at h
    cases hma : map_agent env mapper bca r with
    | error e =>
      rw [hma] at h
      simp at h
    | ok pr =>
      obtain ⟨na, m2n⟩ := pr
      rw [hma] at h
      dsimp only at h
      cases hm : m2n with
      | true =>
        have hdrop := (map_agent_m2n env mapper bca r na m2n hma).1
        rw [hm] at hdrop
        rw [List.any_cons, ← hdrop, Bool.true_or]
      | false =>
        rw [hm] at h
        simp only [if_neg, Bool.false_eq_true, not_false_iff] at h
        cases hrec : map_bc_list env mapper r rest with
        | error e =>
          rw [hrec] at h
          simp at h
        | ok o =>
          cases o with
          | none =>
            rw [List.any_cons, ih hrec, Bool.or_true]
          | some l =>
            rw [hrec] at h
            simp at h

theorem map_bc_list_ok_some (env : Env) (mapper : Mapper) (r : Bool) :
    ∀ bcs l, map_bc_list env mapper r bcs = .ok (some l) →
      bcs.any (agent_maps_to_none mapper) = false := by
  intro bcs
  induction bcs with
  | nil =>
    intro l h
    simp [List.any_nil]
  | cons bca rest ih =>
    intro l h
    simp only [map_bc_list] at h
    cases hma : map_agent env mapper bca r with
    | error e =>
      rw [hma] at h
      simp at h
    | ok pr =>
      obtain ⟨na, m2n⟩ := pr
      rw [hma] at h
      dsimp only at h
      cases hm : m2n with
      | true =>
        rw [hm] at h
        simp at h
      | false =>
        rw [hm] at h
        simp only [if_neg, Bool.false_eq_true, not_false_iff] at h
        have hnd := (map_agent_m2n env mapper bca r na m2n hma).1
        rw [hm] at hnd
        cases hrec : map_bc_list env mapper r rest with
        | error e =>
          rw [hrec] at h
          simp at h
        | ok o =>
          cases o with
          | none =>
            rw [hrec] at h
            simp at h
          | some l1 =>
            rw [List.any_cons, ← hnd, ih l1 hrec]
            rfl

theorem map_bc_phase_ok_none (env : Env) (mapper : Mapper) (r : Bool) :
    ∀ slots, map_bc_phase env mapper r slots = .ok none →
      slots.any (slot_bc_drop mapper) = true := by
  intro slots
  induction slots with
  | nil =>
    intro h
    simp [map_bc_phase] at h
  | cons a? rest ih =>
    intro h
    cases a? with
    | none =>
      simp only [map_bc_phase] at h
      cases hrec : map_bc_phase env mapper r rest with
      | error e =>
        rw [hrec] at h
        simp at h
      | ok o =>
        cases o with
        | none =>
          rw [List.any_cons, ih hrec, Bool.or_true]
        | some l =>
          rw [hrec] at h
          simp at h
    | some a =>
      simp only [map_bc_phase] at h
      cases hbl : map_bc_list env mapper r a.bcs with
      | error e =>
        rw [hbl] at h
        simp at h
      | ok o =>
        cases o with
        | none =>
          have := map_bc_list_ok_none env mapper r a.bcs hbl
          rw [List.any_cons]
          simp only [slot_bc_drop, this, Bool.true_or]
        | some bcs2 =>
          rw [hbl] at h
          dsimp only at h
          cases hrec : map_bc_phase env mapper r rest with
          | error e =>
            rw [hrec] at h
            simp at h
          | ok o2 =>
            cases o2 with
            | none =>
              rw [List.any_cons, ih hrec, Bool.or_true]
            | some l =>
              rw [hrec] at h
              simp at h

theorem map_bc_phase_ok_some (env : Env) (mapper : Mapper) (r : Bool) :
    ∀ slots l2, map_bc_phase env mapper r slots = .ok (some l2) →
      slots.any (slot_bc_drop mapper) = false := by
  intro slots
  induction slots with
  | nil =>
    intro l2 h
    simp [List.any_nil]
  | cons a? rest ih =>
    intro l2 h
    cases a? with
    | none =>
      simp only [map_bc_phase] at h
      cases hrec : map_bc_phase env mapper r rest with
      | error e =>
        rw [hrec] at h
        simp at h
      | ok o =>
        cases o with
        | none =>
          rw [hrec] at h
          simp at h
        | some l =>
          rw [List.any_cons, ih l hrec]
          rfl
    | some a =>
      simp only [map_bc_phase] at h
      cases hbl : map_bc_list env mapper r a.bcs with
      | error e =>
        rw [hbl] at h
        simp at h
      | ok o =>
        cases o with
        | none =>
          rw [hbl] at h
          simp at h
        | some bcs2 =>
          rw [hbl] at h
          dsimp only at h
          cases hrec : map_bc_phase env mapper r rest with
          | error e =>
            rw [hrec] at h
            simp at h
          | ok o2 =>
            cases o2 with
            | none =>
              rw [hrec] at h
              simp at h
            | some l =>
              have hh := map_bc_list_ok_some env mapper r a.bcs bcs2 hbl
              rw [List.any_cons, ih l hrec]
              simp only [slot_bc_drop, hh]
              rfl

theorem map_agents_for_stmt_none_iff (env : Env) (mapper : Mapper) (stmt : Stmt) (r : Bool)
    (res : Option Stmt) (h : map_agents_for_stmt env mapper stmt r = .ok res) :
    (res = none ↔ stmt_dropped mapper stmt = true) := by
  unfold map_agents_for_stmt at h
  unfold stmt_dropped
  cases htop : map_top_agents env mapper r stmt.agents.length 0 stmt.agents stmt.evidence with
  | error e =>
    rw [htop] at h
    simp at h
  | ok o =>
    cases o with
    | none =>
      rw [htop] at h
      simp at h
      subst h
      have hd := map_top_ok_none env mapper r stmt.agents.length stmt.agents 0 stmt.evidence htop
      simp [hd]
    | some p =>
      obtain ⟨l, evs2⟩ := p
      rw [htop] at h
      dsimp only at h
      obtain ⟨h1, h2⟩ :=
        map_top_ok_some env mapper r stmt.agents.length stmt.agents 0 stmt.evidence l evs2 htop
      cases hbp : map_bc_phase env mapper r l with
      | error e =>
        rw [hbp] at h
        simp at h
      | ok o2 =>
        cases o2 with
        | none =>
          rw [hbp] at h
          simp at h
          subst h
          have hd := map_bc_phase_ok_none env mapper r l hbp
          rw [hd] at h2
          simp [h1, ← h2]
        | some l2 =>
          rw [hbp] at h
          simp at h
          subst h
          have hd := map_bc_phase_ok_some env mapper r l l2 hbp
          rw [hd] at h2
          simp [h1, ← h2]

theorem map_agents_ok_parts (env : Env) (mapper : Mapper) (r : Bool) :
    ∀ stmts out cnt, map_agents env mapper stmts r = .ok (out, cnt) →
      (out = stmts.filterMap
        (fun s => ((map_agents_for_stmt env mapper s r).toOption).bind id)) ∧
      cnt + out.length = stmts.length ∧
      (∀ s ∈ stmts, ∃ res, map_agents_for_stmt env mapper s r = .ok res) := by
  intro stmts
  induction stmts with
  | nil =>
    intro out cnt h
    simp [map_agents] at h
    simp [h.1, h.2]
  | cons s rest ih =>
    intro out cnt h
    simp only [map_agents] at h
    cases hs : map_agents_for_stmt env mapper s r with
    | error e =>
      rw [hs] at h
      simp at h
    | ok res =>
      rw [hs] at h
      dsimp only at h
      cases hrec : map_agents env mapper rest r with
      | error e =>
        rw [hrec] at h
        simp at h
      | ok p =>
        obtain ⟨l, n⟩ := p
        rw [hrec] at h
        dsimp only at h
        obtain ⟨ih1, ih2, ih3⟩ := ih l n hrec
        cases res with
        | some ms =>
          simp at h
          obtain ⟨hout, hcnt⟩ := h
          refine ⟨?_, ?_, ?_⟩
          · rw [← hout, List.filterMap_cons]
            have hhead : ((map_agents_for_stmt env mapper s r).toOption).bind id = some ms := by
              rw [hs]
              rfl
            rw [hhead]
            dsimp only
            rw [ih1]
          · rw [← hout, ← hcnt]
            simp only [List.length_cons]
            omega
          · intro s' hs'
            rcases List.mem_cons.mp hs' with hq | hq
            · exact ⟨some ms, hq ▸ hs⟩
            · exact ih3 s' hq
        | none =>
          simp at h
          obtain ⟨hout, hcnt⟩ := h
          refine ⟨?_, ?_, ?_⟩
          · rw [← hout, List.filterMap_cons]
            have hhead : ((map_agents_for_stmt env mapper s r).toOption).bind id = none := by
              rw [hs]
              rfl
            rw [hhead]
            dsimp only
            exact ih1
          · rw [← hout, ← hcnt]
            simp only [List.length_cons]
            omega
          · intro s' hs'
            rcases List.mem_cons.mp hs' with hq | hq
            · exact ⟨none, hq ▸ hs⟩
            · exact ih3 s' hq

theorem map_agent_no_deft (env : Env) (mapper : Mapper) (a : Agent) (r : Bool) :
    map_agent (env_no_deft env) mapper a r = map_agent env mapper a r := rfl

theorem map_bc_list_no_deft (env : Env) (mapper : Mapper) (r : Bool) :
    ∀ bcs, map_bc_list (env_no_deft env) mapper r bcs = map_bc_list env mapper r bcs := by
  intro bcs
  induction bcs with
  | nil => rfl
  | cons b rest ih =>
    simp only [map_bc_list, map_agent_no_deft, ih]

theorem map_bc_phase_no_deft (env : Env) (mapper : Mapper) (r : Bool) :
    ∀ l, map_bc_phase (env_no_deft env) mapper r l = map_bc_phase env mapper r l := by
  intro l
  induction l with
  | nil => rfl
  | cons a? rest ih =>
    cases a? with
    | none => simp only [map_bc_phase, ih]
    | some a => simp only [map_bc_phase, map_bc_list_no_deft, ih]

theorem run_deft_hook_error_fst (env : Env) (evs : List Evidence) (n idx : Nat)
    (na : Option Agent) (t : String)
    (hhook : ∀ m, env.deft_models t = some m → ∀ s, ∃ e, m s = .error e) :
    (run_deft_disambiguation env evs n idx na t).1 = na := by
  unfold run_deft_disambiguation
  dsimp only
  cases hgt : get_text_for_grounding env (init_deft_annots evs n) t with
  | error e => rfl
  | ok gt =>
    dsimp only
    by_cases htr : (!truthy gt) = true
    · rw [if_pos htr]
    · rw [if_neg htr]
      cases hdm : env.deft_models t with
      | none => rfl
      | some dis =>
        obtain ⟨e, he⟩ := hhook dis hdm (sval gt)
        dsimp only
        rw [he]

theorem map_top_hook_error (env : Env) (mapper : Mapper) (r : Bool) (nA : Nat)
    (hhook : ∀ t m, env.deft_models t = some m → ∀ s, ∃ e, m s = .error e) :
    ∀ ags idx evs evs2,
      top_res_agents (map_top_agents env mapper r nA idx ags evs) =
      top_res_agents (map_top_agents (env_no_deft env) mapper r nA idx ags evs2) := by
  intro ags
  induction ags with
  | nil =>
    intro idx evs evs2
    rfl
  | cons a? rest ih =>
    intro idx evs evs2
    cases a? with
    | none =>
      simp only [map_top_agents]
      have hr := ih (idx + 1) evs evs2
      cases h1 : map_top_agents env mapper r nA (idx + 1) rest evs with
      | error e =>
        rw [h1] at hr
        cases h2 : map_top_agents (env_no_deft env) mapper r nA (idx + 1) rest evs2 with
        | error e2 =>
          rw [h2] at hr
          simp [top_res_agents] at hr
          subst hr
          rfl
        | ok o2 =>
          rw [h2] at hr
          cases o2 with
          | none => simp [top_res_agents] at hr
          | some p2 => obtain ⟨l2, e2⟩ := p2; simp [top_res_agents] at hr
      | ok o =>
        cases h2 : map_top_agents (env_no_deft env) mapper r nA (idx + 1) rest evs2 with
        | error e2 =>
          rw [h1, h2] at hr
          cases o with
          | none => simp [top_res_agents] at hr
          | some p => obtain ⟨l1, e1⟩ := p; simp [top_res_agents] at hr
        | ok o2 =>
          rw [h1, h2] at hr
          cases o with
          | none =>
            cases o2 with
            | none => rfl
            | some p2 => obtain ⟨l2, e2⟩ := p2; simp [top_res_agents] at hr
          | some p =>
            obtain ⟨l1, e1⟩ := p
            cases o2 with
            | none => simp [top_res_agents] at hr
            | some p2 =>
              obtain ⟨l2, e2⟩ := p2
              simp [top_res_agents] at hr
              subst hr
              rfl
    | some a =>
      simp only [map_top_agents]
      cases ht : dget a.db_refs "TEXT" with
      | none =>
        have hr := ih (idx + 1) evs evs2
        cases h1 : map_top_agents env mapper r nA (idx + 1) rest evs with
        | error e =>
          rw [h1] at hr
          cases h2 : map_top_agents (env_no_deft env) mapper r nA (idx + 1) rest evs2 with
          | error e2 =>
            rw [h2] at hr
            simp [top_res_agents] at hr
            subst hr
            rfl
          | ok o2 =>
            rw [h2] at hr
            cases o2 with
            | none => simp [top_res_agents] at hr
            | some p2 => obtain ⟨l2, e2⟩ := p2; simp [top_res_agents] at hr
        | ok o =>
          cases h2 : map_top_agents (env_no_deft env) mapper r nA (idx + 1) rest evs2 with
          | error e2 =>
            rw [h1, h2] at hr
            cases o with
            | none => simp [top_res_agents] at hr
            | some p => obtain ⟨l1, e1⟩ := p; simp [top_res_agents] at hr
          | ok o2 =>
            rw [h1, h2] at hr
            cases o with
            | none =>
              cases o2 with
              | none => rfl
              | some p2 => obtain ⟨l2, e2⟩ := p2; simp [top_res_agents] at hr
            | some p =>
              obtain ⟨l1, e1⟩ := p
              cases o2 with
              | none => simp [top_res_agents] at hr
              | some p2 =>
                obtain ⟨l2, e2⟩ := p2
                simp [top_res_agents] at hr
                subst hr
                rfl
      | some txt =>
        rw [map_agent_no_deft]
        cases hma : map_agent env mapper a r with
        | error e => rfl
        | ok pr =>
          obtain ⟨na, m2n⟩ := pr
          dsimp only
          have hstep1 : (if mapper.use_deft && (env.deft_models txt).isSome then
              ((run_deft_disambiguation env evs nA idx na txt).1,
                (run_deft_disambiguation env evs nA idx na txt).2.1)
            else (na, evs)).1 = na := by
            by_cases hd : (mapper.use_deft && (env.deft_models txt).isSome) = true
            · rw [if_pos hd]
              exact run_deft_hook_error_fst env evs nA idx na txt (fun m hm => hhook txt m hm)
            · rw [if_neg hd]
          have hstep2 : (if mapper.use_deft && ((env_no_deft env).deft_models txt).isSome then
              ((run_deft_disambiguation (env_no_deft env) evs2 nA idx na txt).1,
                (run_deft_disambiguation (env_no_deft env) evs2 nA idx na txt).2.1)
            else (na, evs2)).1 = na := by
            have : ((env_no_deft env).deft_models txt).isSome = false := rfl
            rw [this, Bool.and_false, if_neg (by simp)]
          cases hm : m2n with
          | true => rfl
          | false =>
            simp only [Bool.false_eq_true, if_neg, not_false_iff]
            rw [hstep1, hstep2]
            have hr := ih (idx + 1)
              (if mapper.use_deft && (env.deft_models txt).isSome then
                ((run_deft_disambiguation env evs nA idx na txt).1,
                  (run_deft_disambiguation env evs nA idx na txt).2.1)
              else (na, evs)).2
              (if mapper.use_deft && ((env_no_deft env).deft_models txt).isSome then
                ((run_deft_disambiguation (env_no_deft env) evs2 nA idx na txt).1,
                  (run_deft_disambiguation (env_no_deft env) evs2 nA idx na txt).2.1)
              else (na, evs2)).2
            cases h1 : map_top_agents env mapper r nA (idx + 1) rest
                (if mapper.use_deft && (env.deft_models txt).isSome then
                  ((run_deft_disambiguation env evs nA idx na txt).1,
                    (run_deft_disambiguation env evs nA idx na txt).2.1)
                else (na, evs)).2 with
            | error e =>
              rw [h1] at hr
              cases h2 : map_top_agents (env_no_deft env) mapper r nA (idx + 1) rest
                  (if mapper.use_deft && ((env_no_deft env).deft_models txt).isSome then
                    ((run_deft_disambiguation (env_no_deft env) evs2 nA idx na txt).1,
                      (run_deft_disambiguation (env_no_deft env) evs2 nA idx na txt).2.1)
                  else (na, evs2)).2 with
              | error e2 =>
                rw [h2] at hr
                simp [top_res_agents] at hr
                subst hr
                rfl
              | ok o2 =>
                rw [h2] at hr
                cases o2 with
                | none => simp [top_res_agents] at hr
                | some p2 => obtain ⟨l2, e2⟩ := p2; simp [top_res_agents] at hr
            | ok o =>
              cases h2 : map_top_agents (env_no_deft env) mapper r nA (idx + 1) rest
                  (if mapper.use_deft && ((env_no_deft env).deft_models txt).isSome then
                    ((run_deft_disambiguation (env_no_deft env) evs2 nA idx na txt).1,
                      (run_deft_disambiguation (env_no_deft env) evs2 nA idx na txt).2.1)
                  else (na, evs2)).2 with
              | error e2 =>
                rw [h1, h2] at hr
                cases o with
                | none => simp [top_res_agents] at hr
                | some p => obtain ⟨l1, e1⟩ := p; simp [top_res_agents] at hr
              | ok o2 =>
                rw [h1, h2] at hr
                cases o with
                | none =>
                  cases o2 with
                  | none => rfl
                  | some p2 => obtain ⟨l2, e2⟩ := p2; simp [top_res_agents] at hr
                | some p =>
                  obtain ⟨l1, e1⟩ := p
                  cases o2 with
                  | none => simp [top_res_agents] at hr
                  | some p2 =>
                    obtain ⟨l2, e2⟩ := p2
                    simp [top_res_agents] at hr
                    subst hr
                    rfl

theorem standardize_db_refs_error_iff_aux (env : Env) (refs : Refs) :
    ((∃ m, standardize_db_refs env refs = .error m) ↔
      ((truthy (dget refs "HGNC") = true ∧ truthy (dget refs "UP") = false ∧
          truthy (env.hgnc_id (sval (dget refs "HGNC"))) = false) ∨
        (truthy (dget refs "UP") = true ∧ truthy (dget refs "HGNC") = true ∧
          (truthy (env.up_gene_name true (sval (dget refs "UP"))) = false ∨
            sval (env.up_gene_name true (sval (dget refs "UP"))) ≠ sval (dget refs "HGNC"))))) := by
  cases hu : truthy (dget refs "UP") <;> cases hh : truthy (dget refs "HGNC") <;>
    simp [standardize_db_refs, hu, hh] <;> split_ifs <;> simp_all

theorem standardize_db_refs_error_msgs_aux (env : Env) (refs : Refs) :
    ((truthy (dget refs "HGNC") = true → truthy (dget refs "UP") = false →
      truthy (env.hgnc_id (sval (dget refs "HGNC"))) = false →
      standardize_db_refs env refs = .error
        ("No HGNC ID corresponding to gene symbol " ++ sval (dget refs "HGNC") ++
          " in grounding map.")) ∧
    (truthy (dget refs "UP") = true → truthy (dget refs "HGNC") = true →
      truthy (env.up_gene_name true (sval (dget refs "UP"))) = false →
      standardize_db_refs env refs = .error
        ("No gene name found for Uniprot ID " ++ sval (dget refs "UP") ++ " (expected " ++
          sval (dget refs "HGNC") ++ ")")) ∧
    (truthy (dget refs "UP") = true → truthy (dget refs "HGNC") = true →
      truthy (env.up_gene_name true (sval (dget refs "UP"))) = true →
      sval (env.up_gene_name true (sval (dget refs "UP"))) ≠ sval (dget refs "HGNC") →
      standardize_db_refs env refs = .error
        ("Gene name " ++ sval (env.up_gene_name true (sval (dget refs "UP"))) ++
          " for Uniprot ID " ++ sval (dget refs "UP") ++ " does not match HGNC symbol " ++
          sval (dget refs "HGNC") ++ " given in grounding map."))) := by
  refine ⟨fun h1 h2 h3 => ?_, fun h1 h2 h3 => ?_, fun h1 h2 h3 h4 => ?_⟩ <;>
    simp [standardize_db_refs, h1, h2, h3] <;> simp_all

/-- C1: `standardize_db_refs` raises a validation error if and only if either
(i) the record has a (truthy) HGNC symbol but no UP entry and the symbol
resolves to no HGNC ID, or (ii) the record has both UP and HGNC entries and
the gene name associated with the UniProt accession is absent or differs by
exact string comparison from the given HGNC symbol; the three error messages
are exactly the source's messages, naming the offending symbol and accession;
in every other case the function returns normally.  An entry is read as
present when it is Python-truthy, which is how the source tests it. -/
theorem standardize_db_refs_error_spec (env : Env) (refs : Refs) :
    ((∃ m, standardize_db_refs env refs = .error m) ↔
      ((truthy (dget refs "HGNC") = true ∧ truthy (dget refs "UP") = false ∧
          truthy (env.hgnc_id (sval (dget refs "HGNC"))) = false) ∨
        (truthy (dget refs "UP") = true ∧ truthy (dget refs "HGNC") = true ∧
          (truthy (env.up_gene_name true (sval (dget refs "UP"))) = false ∨
            sval (env.up_gene_name true (sval (dget refs "UP"))) ≠ sval (dget refs "HGNC"))))) ∧
    (truthy (dget refs "HGNC") = true → truthy (dget refs "UP") = false →
      truthy (env.hgnc_id (sval (dget refs "HGNC"))) = false →
      standardize_db_refs env refs = .error
        ("No HGNC ID corresponding to gene symbol " ++ sval (dget refs "HGNC") ++
          " in grounding map.")) ∧
    (truthy (dget refs "UP") = true → truthy (dget refs "HGNC") = true →
      truthy (env.up_gene_name true (sval (dget refs "UP"))) = false →
      standardize_db_refs env refs = .error
        ("No gene name found for Uniprot ID " ++ sval (dget refs "UP") ++ " (expected " ++
          sval (dget refs "HGNC") ++ ")")) ∧
    (truthy (dget refs "UP") = true → truthy (dget refs "HGNC") = true →
      truthy (env.up_gene_name true (sval (dget refs "UP"))) = true →
      sval (env.up_gene_name true (sval (dget refs "UP"))) ≠ sval (dget refs "HGNC") →
      standardize_db_refs env refs = .error
        ("Gene name " ++ sval (env.up_gene_name true (sval (dget refs "UP"))) ++
          " for Uniprot ID " ++ sval (dget refs "UP") ++ " does not match HGNC symbol " ++
          sval (dget refs "HGNC") ++ " given in grounding map.")) :=
  ⟨standardize_db_refs_error_iff_aux env refs,
    (standardize_db_refs_error_msgs_aux env refs).1,
    (standardize_db_refs_error_msgs_aux env refs).2.1,
    (standardize_db_refs_error_msgs_aux env refs).2.2⟩

/-- Witness for C1: a record with only the unknown symbol XYZ makes
`standardize_db_refs` raise. -/
theorem standardize_db_refs_error_spec_witness :
    ∃ m, standardize_db_refs env_triv [("HGNC", "XYZ")] = .error m :=
  (standardize_db_refs_error_spec env_triv [("HGNC", "XYZ")]).1.mpr
    (Or.inl ⟨rfl, rfl, rfl⟩)

/-- Counterexample to C2 as stated: the text X is mapped to the none-sentinel
in the grounding map and appears as a top-level agent's text, yet the batch
retains the statement with a skipped count of zero, because the agent-map
entry for X short-circuits the grounding-map lookup. -/
theorem map_agents_gm_none_shadowed_counterexample :
    c2_mapper.gm "X" = some none ∧
    dget (Agent.mk "X" [("TEXT", "X")] []).db_refs "TEXT" = some "X" ∧
    map_agents env_triv c2_mapper [c2_stmt] true =
      .ok ([⟨[some c2_rep_agent], []⟩], 0) := by
  refine ⟨rfl, rfl, ?_⟩
  rfl

/-- C2 (amended): whenever `map_agents` completes normally, its output is the
input statements' per-statement mapping results in input order with the
dropped ones removed, the logged skipped count plus the output length equals
the input length, and a statement's mapping signals a drop exactly when some
top-level agent, or some bound-condition agent present after the top-level
phase, has a text with no agent-map entry that the grounding map sends to
the none-sentinel. -/
theorem map_agents_batch_spec (env : Env) (mapper : Mapper) (stmts : List Stmt)
    (do_rename : Bool) (out : List Stmt) (cnt : Nat)
    (h : map_agents env mapper stmts do_rename = .ok (out, cnt)) :
    out = stmts.filterMap
      (fun s => ((map_agents_for_stmt env mapper s do_rename).toOption).bind id) ∧
    cnt + out.length = stmts.length ∧
    ∀ s ∈ stmts, ∃ res, map_agents_for_stmt env mapper s do_rename = .ok res ∧
      (res = none ↔ stmt_dropped mapper s = true) := by
  obtain ⟨h1, h2, h3⟩ := map_agents_ok_parts env mapper do_rename stmts out cnt h
  refine ⟨h1, h2, fun s hs => ?_⟩
  obtain ⟨res, hres⟩ := h3 s hs
  exact ⟨res, hres, map_agents_for_stmt_none_iff env mapper s do_rename res hres⟩

/-- Witness for C2: a two-statement batch in which the second statement's
text is curated to nothing yields the first statement alone, in order, with
one drop counted. -/
theorem map_agents_batch_spec_witness :
    [c2w_stmt1] = ([c2w_stmt1, c2w_stmt2].filterMap
      (fun s => ((map_agents_for_stmt env_triv c2w_mapper s false).toOption).bind id)) ∧
    (1 : Nat) + 1 = 2 :=
  ⟨(map_agents_batch_spec env_triv c2w_mapper [c2w_stmt1, c2w_stmt2] false [c2w_stmt1] 1
      rfl).1,
   (map_agents_batch_spec env_triv c2w_mapper [c2w_stmt1, c2w_stmt2] false [c2w_stmt1] 1
      rfl).2.1⟩

/-- Counterexample to C3 as stated: X has a precomputed agent-map entry, yet
the statement-level disambiguation step is not skipped; the deft model for X
overrides the replacement mention's record and name, so the resulting
agent's record differs from the precomputed entity's. -/
theorem agent_map_replacement_disambiguated_counterexample :
    c3_mapper.agent_map "X" = some c3_rep ∧
    map_agents_for_stmt c3_env c3_mapper c3_stmt true =
      .ok (some ⟨[some (.mk "MEK" [("TEXT", "X"), ("FPLX", "MEK")] [])],
        [⟨none, some "sentence", some [some "sc"]⟩]⟩) ∧
    ([("TEXT", "X"), ("FPLX", "MEK")] : Refs) ≠ c3_rep.db_refs := by
  refine ⟨rfl, ?_, by decide⟩
  rfl

/-- C3 (amended): when the observed text has a precomputed agent-map entry,
`map_agent` returns that precomputed entity wholesale, skipping the
grounding-map lookup, reconciliation and renaming (the result does not
depend on the grounding map or the rename flag); statement-level
disambiguation, however, still runs afterwards and may override the
replacement, as the counterexample shows. -/
theorem map_agent_agent_map_shortcut (env : Env) (mapper : Mapper) (a rep : Agent)
    (do_rename : Bool)
    (h : (dget a.db_refs "TEXT").bind mapper.agent_map = some rep) :
    map_agent env mapper a do_rename = .ok (some rep, false) := by
  unfold map_agent
  dsimp only
  rw [h]

/-- Witness for C3: an agent whose text has both an agent-map entry and a
grounding-map record is mapped to the precomputed entity. -/
theorem map_agent_agent_map_shortcut_witness :
    map_agent env_triv c3w_mapper c3w_agent true = .ok (some c3_rep, false) :=
  map_agent_agent_map_shortcut env_triv c3w_mapper c3w_agent c3_rep true rfl

/-- C4 (code bug): for any mention whose highest-priority populated grounding
namespace is CHEBI, `standardize_name` does not resolve the ID to a name; it
raises `TypeError`, because the source (grounding_mapper.py line 368) calls
`chebi_client.chebi_id_to_name`, which is the module-level dict defined at
chebi_client.py line 332, not a function.  Evaluated here at the failing
input `{TEXT: GTP, CHEBI: 15996}`, for every collaborator environment. -/
theorem standardize_name_chebi_typeerror (env : Env) :
    standardize_name env (Agent.mk "GTP" [("TEXT", "GTP"), ("CHEBI", "15996")] []) =
      .error .typeError := rfl

/-- C5: for a record with a (truthy) UP entry and no (truthy) HGNC entry, if
the accession's gene name is known and resolves to an HGNC ID the record
comes back extended with that HGNC ID, and if the accession has no known
gene name the record comes back unchanged with no error. -/
theorem standardize_db_refs_up_only_enrichment (env : Env) (refs : Refs) (u : String)
    (hup : dget refs "UP" = some u) (hu : u ≠ "")
    (hh : truthy (dget refs "HGNC") = false) :
    (∀ g h, env.up_gene_name false u = some g → g ≠ "" → env.hgnc_id g = some h → h ≠ "" →
      standardize_db_refs env refs = .ok (dset refs "HGNC" h)) ∧
    (truthy (env.up_gene_name false u) = false →
      standardize_db_refs env refs = .ok refs) := by
  have htu : truthy (dget refs "UP") = true := by rw [hup]; simp [truthy, hu]
  have hsv : sval (dget refs "UP") = u := by rw [hup]; rfl
  constructor
  · intro g h hg hgne hid hhne
    have e1 : env.up_gene_name false (sval (dget refs "UP")) = some g := by rw [hsv]; exact hg
    have t1 : truthy (env.up_gene_name false (sval (dget refs "UP"))) = true := by
      rw [e1]; simp [truthy, hgne]
    have s1 : sval (env.up_gene_name false (sval (dget refs "UP"))) = g := by rw [e1]; rfl
    have e2 : env.hgnc_id (sval (env.up_gene_name false (sval (dget refs "UP")))) = some h := by
      rw [s1]; exact hid
    have t2 : truthy (env.hgnc_id (sval (env.up_gene_name false (sval (dget refs "UP"))))) =
        true := by
      rw [e2]; simp [truthy, hhne]
    have s2 : sval (env.hgnc_id (sval (env.up_gene_name false (sval (dget refs "UP"))))) = h := by
      rw [e2]; rfl
    simp [standardize_db_refs, htu, hh, t1, t2, s2]
  · intro hng
    have t1 : truthy (env.up_gene_name false (sval (dget refs "UP"))) = false := by
      rw [hsv]; exact hng
    simp [standardize_db_refs, htu, hh, t1]

/-- Witness for C5: the record with only UP P1 is extended with HGNC 7. -/
theorem standardize_db_refs_up_only_enrichment_witness :
    standardize_db_refs c5_env [("UP", "P1")] = .ok [("UP", "P1"), ("HGNC", "7")] :=
  (standardize_db_refs_up_only_enrichment c5_env [("UP", "P1")] "P1" rfl (by decide)
    rfl).1 "G1" "7" rfl (by decide) rfl (by decide)

/-- C6: `standardize_db_refs` writes only the UP and HGNC keys: when it
returns a record, every other key's entry is unchanged, and a record with
neither a UP nor an HGNC key is returned unmodified. -/
theorem standardize_db_refs_frame (env : Env) (refs : Refs) :
    ((∀ k, k ≠ "UP" → k ≠ "HGNC" → ∀ out, standardize_db_refs env refs = .ok out →
        dget out k = dget refs k) ∧
      (dget refs "UP" = none → dget refs "HGNC" = none →
        standardize_db_refs env refs = .ok refs)) := by
  constructor
  · intro k hk1 hk2 out hout
    cases hu : truthy (dget refs "UP") <;> cases hh : truthy (dget refs "HGNC") <;>
      simp [standardize_db_refs, hu, hh] at hout
    · subst hout; rfl
    · split_ifs at hout <;>
        (simp only [Except.ok.injEq] at hout; subst hout; simp [dget_dset_ne, hk1, hk2])
    · split_ifs at hout <;>
        (simp only [Except.ok.injEq] at hout; subst hout; simp [dget_dset_ne, hk1, hk2])
    · split_ifs at hout <;>
        (simp only [Except.ok.injEq] at hout; subst hout; simp [dget_dset_ne, hk1, hk2])
  · intro h1 h2
    simp [standardize_db_refs, h1, h2, truthy]

/-- Witness for C6: a record carrying only TEXT and CHEBI entries passes
through unmodified. -/
theorem standardize_db_refs_frame_witness :
    standardize_db_refs env_triv [("TEXT", "x"), ("CHEBI", "1")] =
      .ok [("TEXT", "x"), ("CHEBI", "1")] :=
  (standardize_db_refs_frame env_triv [("TEXT", "x"), ("CHEBI", "1")]).2 rfl rfl

/-- C7: over a hierarchy oracle behaving as a strict partial order on the
three identifiers, with A is-a B and B is-a C reported, `get_specific_id`
returns A for every input order of the three; and on a non-empty list with
no is-a relation between any pair it returns the first element of the input
list, so the result is determined only by the input order. -/
theorem get_specific_id_spec (isa : String → String → Bool) :
    (∀ A B C l,
      isa (expand_chebi A) (expand_chebi B) = true →
      isa (expand_chebi B) (expand_chebi C) = true →
      isa (expand_chebi A) (expand_chebi C) = true →
      isa (expand_chebi B) (expand_chebi A) = false →
      isa (expand_chebi C) (expand_chebi B) = false →
      isa (expand_chebi C) (expand_chebi A) = false →
      (l = [A, B, C] ∨ l = [A, C, B] ∨ l = [B, A, C] ∨
       l = [B, C, A] ∨ l = [C, A, B] ∨ l = [C, B, A]) →
      get_specific_id isa l = some A) ∧
    (∀ l, l ≠ [] → (∀ x ∈ l, ∀ y ∈ l, isa (expand_chebi x) (expand_chebi y) = false) →
      get_specific_id isa l = l.head?) := by
  constructor
  · intro A B C l h1 h2 h3 h4 h5 h6 hl
    rcases hl with rfl | rfl | rfl | rfl | rfl | rfl <;>
      simp [get_specific_id, sort_cmp, insert_cmp, isa_cmp, h1, h2, h3, h4, h5, h6]
  · intro l hne hall
    have hz : ∀ x ∈ l, ∀ y ∈ l, isa_cmp isa x y = 0 := by
      intro x hx y hy
      simp [isa_cmp, hall x hx y hy, hall y hy x hx]
    have hs := sort_cmp_all_zero (isa_cmp isa) l hz
    cases l with
    | nil => exact absurd rfl hne
    | cons a as => simp [get_specific_id, hs]

/-- Witness for C7: with the chain 1 is-a 2 is-a 3 the list [3, 1, 2] yields
1, and with no relations at all the list [9, 8] yields its first element. -/
theorem get_specific_id_spec_witness :
    get_specific_id c7_isa ["3", "1", "2"] = some "1" ∧
    get_specific_id (fun _ _ => false) ["9", "8"] = some "9" := by
  constructor
  · exact (get_specific_id_spec c7_isa).1 "1" "2" "3" ["3", "1", "2"] (by decide) (by decide)
      (by decide) (by decide) (by decide) (by decide)
      (Or.inr (Or.inr (Or.inr (Or.inr (Or.inl rfl)))))
  · exact (get_specific_id_spec (fun _ _ => false)).2 ["9", "8"] (by decide) (by decide)

/-- Counterexample to C8 as stated: a network-level failure of the HTTP
request propagates out of the remote ChEBI lookup as an exception, and so
does an XML parse failure on a 200 response body; neither resolves to the
not-found result. -/
theorem chebi_web_raises_counterexample :
    get_chebi_name_from_id_web cenv_net "15996" = .error .connectionError ∧
    get_chebi_name_from_id_web cenv_bad "15996" = .error .xmlSyntaxError :=
  ⟨rfl, rfl⟩

/-- C8 (amended): the remote ChEBI lookup turns a non-200 response into the
not-found result without raising, but every exception it propagates comes
from the HTTP request itself failing or from the XML parser rejecting the
body of a 200 response; well-formed responses never raise. -/
theorem get_chebi_name_from_id_web_spec (cenv : CEnv) (chebi_id : String) :
    (∀ status content, cenv.http_get (chebi_entity_url chebi_id) = .ok (status, content) →
      status ≠ 200 → get_chebi_name_from_id_web cenv chebi_id = .ok none) ∧
    (∀ e, get_chebi_name_from_id_web cenv chebi_id = .error e →
      cenv.http_get (chebi_entity_url chebi_id) = .error e ∨
      ∃ content, cenv.http_get (chebi_entity_url chebi_id) = .ok (200, content) ∧
        cenv.parse_xml content = .error e) := by
  constructor
  · intro status content hresp hne
    simp [get_chebi_name_from_id_web, get_chebi_entry_from_web, hresp, hne,
      get_chebi_value_from_entry]
  · intro e he
    unfold get_chebi_name_from_id_web get_chebi_entry_from_web at he
    cases hr : cenv.http_get (chebi_entity_url chebi_id) with
    | error e' =>
      rw [hr] at he
      simp at he
      subst he
      exact Or.inl rfl
    | ok p =>
      obtain ⟨status, content⟩ := p
      rw [hr] at he
      by_cases hs : status = 200
      · subst hs
        simp at he
        cases hp : cenv.parse_xml content with
        | error e' =>
          rw [hp] at he
          simp at he
          subst he
          exact Or.inr ⟨content, rfl, hp⟩
        | ok t =>
          rw [hp] at he
          simp at he
      · simp [hs] at he

/-- Witness for C8: a 404 response resolves to the not-found result. -/
theorem get_chebi_name_from_id_web_spec_witness :
    get_chebi_name_from_id_web c8w_cenv "15996" = .ok none :=
  (get_chebi_name_from_id_web_spec c8w_cenv "15996").1 404 "" rfl (by decide)

/-- Counterexample to C9 as stated: the disambiguation step for X raises a
`ValueError` (the HGNC re-standardization fails on the predicted symbol
FAKESYM) after it has already overwritten the mention; the exception is
caught and the statement is retained, but the mention's record is the
partially rewritten one, not the step-2 record the grounding map produced,
which the run with disambiguation disabled shows. -/
theorem run_deft_partial_overwrite_counterexample :
    (run_deft_disambiguation c9_env [⟨none, some "sent", none⟩] 1 0
        (some (.mk "X" [("TEXT", "X"), ("FPLX", "ERK")] [])) "X" =
      (some (.mk "NAME" [("TEXT", "X"), ("HGNC", "9999")] []),
        [⟨none, some "sent", some [none]⟩],
        some (.valueError
          "No HGNC ID corresponding to gene symbol FAKESYM in grounding map."))) ∧
    map_agents_for_stmt c9_env c9_mapper c9_stmt false =
      .ok (some ⟨[some (.mk "NAME" [("TEXT", "X"), ("HGNC", "9999")] [])],
        [⟨none, some "sent", some [none]⟩]⟩) ∧
    map_agents_for_stmt (env_no_deft c9_env) c9_mapper c9_stmt false =
      .ok (some ⟨[some (.mk "X" [("TEXT", "X"), ("FPLX", "ERK")] [])],
        [⟨none, some "sent", none⟩]⟩) ∧
    ([("TEXT", "X"), ("HGNC", "9999")] : Refs) ≠ [("TEXT", "X"), ("FPLX", "ERK")] := by
  refine ⟨?_, ?_, ?_, by decide⟩
  · rfl
  · rfl
  · rfl

/-- C9 (amended): when the registered disambiguation hook itself raises for
every input, the exception is caught, the batch continues, and the mapped
statement's agents are exactly those of a run with disambiguation disabled,
so the step-2 results stand; but an exception raised inside the
disambiguation step after the result has been applied leaves the mention
partially overwritten, as the counterexample shows. -/
theorem map_agents_for_stmt_hook_spec (env : Env) (mapper : Mapper) (stmt : Stmt) (r : Bool)
    (hhook : ∀ t m, env.deft_models t = some m → ∀ s, ∃ e, m s = .error e) :
    (map_agents_for_stmt env mapper stmt r).map (Option.map Stmt.agents) =
    (map_agents_for_stmt (env_no_deft env) mapper stmt r).map (Option.map Stmt.agents) := by
  unfold map_agents_for_stmt
  have hr := map_top_hook_error env mapper r stmt.agents.length hhook stmt.agents 0
    stmt.evidence stmt.evidence
  cases h1 : map_top_agents env mapper r stmt.agents.length 0 stmt.agents stmt.evidence with
  | error e =>
    rw [h1] at hr
    cases h2 : map_top_agents (env_no_deft env) mapper r stmt.agents.length 0 stmt.agents
        stmt.evidence with
    | error e2 =>
      rw [h2] at hr
      simp [top_res_agents] at hr
      subst hr
      rfl
    | ok o2 =>
      rw [h2] at hr
      cases o2 with
      | none => simp [top_res_agents] at hr
      | some p2 =>
        obtain ⟨l2, ev2⟩ := p2
        simp [top_res_agents] at hr
  | ok o =>
    cases h2 : map_top_agents (env_no_deft env) mapper r stmt.agents.length 0 stmt.agents
        stmt.evidence with
    | error e2 =>
      rw [h1, h2] at hr
      cases o with
      | none => simp [top_res_agents] at hr
      | some p =>
        obtain ⟨l1, ev1⟩ := p
        simp [top_res_agents] at hr
    | ok o2 =>
      rw [h1, h2] at hr
      cases o with
      | none =>
        cases o2 with
        | none => rfl
        | some p2 =>
          obtain ⟨l2, ev2⟩ := p2
          simp [top_res_agents] at hr
      | some p =>
        obtain ⟨l1, ev1⟩ := p
        cases o2 with
        | none => simp [top_res_agents] at hr
        | some p2 =>
          obtain ⟨l2, ev2⟩ := p2
          simp [top_res_agents] at hr
          subst hr
          dsimp only
          rw [map_bc_phase_no_deft]
          cases hbp : map_bc_phase env mapper r l1 with
          | error e => rfl
          | ok o3 =>
            cases o3 with
            | none => rfl
            | some lf => rfl

/-- Witness for C9: with a hook that always raises, the mapped statement's
agents equal those of the disambiguation-free run. -/
theorem map_agents_for_stmt_hook_spec_witness :
    (map_agents_for_stmt c9w_env c9_mapper c9_stmt false).map (Option.map Stmt.agents) =
    (map_agents_for_stmt (env_no_deft c9w_env) c9_mapper c9_stmt false).map
      (Option.map Stmt.agents) := by
  apply map_agents_for_stmt_hook_spec
  intro t m hm s
  by_cases ht : t = "X"
  · subst ht
    simp [c9w_env] at hm
    subst hm
    exact ⟨.keyError, rfl⟩
  · simp [c9w_env, ht] at hm

/-- C10: for an agent text the grounding map sends to a record, a normally
returning `update_agent_db_refs` leaves the agent's record equal to the
standardized copy of that grounding-map record, wholesale: any key absent
from the standardized record is absent from the agent's new record, whatever
the agent carried before.  The grounding map itself passes through the call
untouched, mirroring the source's deep copy. -/
theorem update_agent_db_refs_wholesale (env : Env) (mapper : Mapper) (agent : Agent)
    (text : String) (rename : Bool) (map_rec srec : Refs)
    (h1 : mapper.gm text = some (some map_rec))
    (h2 : standardize_db_refs env map_rec = .ok srec) :
    ((update_agent_db_refs env mapper agent text rename).1).db_refs = srec ∧
    (∀ k, dget srec k = none →
      dget ((update_agent_db_refs env mapper agent text rename).1).db_refs k = none) := by
  have key : ((update_agent_db_refs env mapper agent text rename).1).db_refs = srec := by
    unfold update_agent_db_refs
    rw [h1]
    dsimp only
    rw [h2]
    dsimp only
    cases rename with
    | false => simp [Agent.db_refs_withRefs]
    | true =>
      simp only [if_true]
      cases hn : standardize_name env (agent.withRefs srec) with
      | ok a2 =>
        have := (standardize_name_shape env _ _ hn).1
        simpa [Agent.db_refs_withRefs] using this
      | error e => simp [Agent.db_refs_withRefs]
  exact ⟨key, fun k hk => by rw [key]; exact hk⟩

/-- Witness for C10: an agent carrying a stale XXX entry has its record
replaced by the standardized copy of the curated ERK record, with the stale
entry gone. -/
theorem update_agent_db_refs_wholesale_witness :
    ((update_agent_db_refs env_triv c10_mapper
        (.mk "e" [("TEXT", "ERK"), ("XXX", "old")] []) "ERK" false).1).db_refs =
      [("TEXT", "ERK"), ("FPLX", "ERK")] :=
  (update_agent_db_refs_wholesale env_triv c10_mapper
    (.mk "e" [("TEXT", "ERK"), ("XXX", "old")] []) "ERK" false
    [("TEXT", "ERK"), ("FPLX", "ERK")] [("TEXT", "ERK"), ("FPLX", "ERK")] rfl rfl).1
